import Mathlib

/-!
Verification development for the class-mate course-assistant backend.

We shallowly embed the RAG ingestion and retrieval core of the repository:

* `app/rag/pg_retrieve.py`   — `retrieve_course_chunk_hits`
* `app/services/pdf_ingestion.py`  — `ingest_pdf_content_to_db`
* `app/services/pptx_ingestion.py` — `ingest_pptx_content_to_db`
* `app/bunny/vtt.py`         — `merge_cues`
* `app/ai/chat_engine.py`    — `ChatEngine.generate_reply` (reply-text fallback)

External collaborators (S3 download, the pypdf/python-pptx extractors, the
langchain text splitter, sha256, the BM25 scoring function of Postgres and
the LLM) are modelled as function parameters or as `Except`-valued inputs;
everything written in the repository itself is translated directly.
-/

namespace ClassMate

/-! ### Python `str.strip()` -/

/-- Model of Python `str.strip()` on the underlying character list:
drop whitespace from the front, then from the back. -/
def pyStripList (l : List Char) : List Char :=
  ((l.dropWhile Char.isWhitespace).reverse.dropWhile Char.isWhitespace).reverse

/-- Model of Python `str.strip()`. -/
def pyStrip (s : String) : String :=
  String.mk (pyStripList s.data)

theorem head?_dropWhile_false {α : Type} (p : α → Bool) :
    ∀ (l : List α) (a : α), (l.dropWhile p).head? = some a → p a = false := by
  intro l
  induction l with
  | nil => intro a h; simp [List.dropWhile] at h
  | cons x xs ih =>
    intro a h
    rw [List.dropWhile_cons] at h
    by_cases hx : p x
    · rw [if_pos hx] at h
      exact ih a h
    · rw [if_neg hx] at h
      simp only [List.head?_cons, Option.some.injEq] at h
      subst h
      exact Bool.eq_false_iff.mpr hx

theorem dropWhile_eq_self_of_head {α : Type} (p : α → Bool) (l : List α)
    (h : ∀ a, l.head? = some a → p a = false) : l.dropWhile p = l := by
  cases l with
  | nil => rfl
  | cons x xs =>
    rw [List.dropWhile_cons, if_neg]
    intro hx
    have := h x rfl
    rw [hx] at this
    exact Bool.true_eq_false.mp this

theorem getLast?_dropWhile {α : Type} (p : α → Bool) :
    ∀ (l : List α), l.dropWhile p ≠ [] → (l.dropWhile p).getLast? = l.getLast? := by
  intro l
  induction l with
  | nil => intro h; simp [List.dropWhile] at h
  | cons x xs ih =>
    intro h
    rw [List.dropWhile_cons] at h ⊢
    by_cases hx : p x
    · rw [if_pos hx] at h ⊢
      have hxs : xs ≠ [] := by
        intro he
        rw [he] at h
        simp [List.dropWhile] at h
      rw [ih h]
      cases xs with
      | nil => exact absurd rfl hxs
      | cons y ys => rw [List.getLast?_cons_cons]
    · rw [if_neg hx]

theorem pyStripList_idem (l : List Char) : pyStripList (pyStripList l) = pyStripList l := by
  unfold pyStripList
  set w := Char.isWhitespace with hw
  set m := l.dropWhile w with hm
  set n := m.reverse.dropWhile w with hn
  have hnhead : ∀ a, n.head? = some a → w a = false := by
    intro a ha
    exact head?_dropWhile_false w m.reverse a (hn ▸ ha)
  have hstep1 : n.reverse.dropWhile w = n.reverse := by
    apply dropWhile_eq_self_of_head
    intro a ha
    rw [List.head?_reverse] at ha
    by_cases hne : n = []
    · rw [hne] at ha; simp at ha
    · have h1 : n.getLast? = m.reverse.getLast? := getLast?_dropWhile w m.reverse (hn ▸ hne)
      rw [List.getLast?_reverse] at h1
      rw [h1] at ha
      rw [hm] at ha
      exact head?_dropWhile_false w l a ha
  rw [hstep1, List.reverse_reverse]
  have hstep2 : n.dropWhile w = n := by
    apply dropWhile_eq_self_of_head
    exact hnhead
  rw [hstep2]

theorem pyStrip_idem (s : String) : pyStrip (pyStrip s) = pyStrip s :=
  congrArg String.mk (pyStripList_idem s.data)

/-! ### Chunk metadata (JSONB bags) -/

/-- A JSON-ish scalar value stored in a chunk metadata bag. -/
inductive MetaVal : Type where
  | str (s : String)
  | num (n : Int)
deriving DecidableEq

/-- A metadata bag: insertion-ordered key/value pairs with first-match lookup
(models a Python dict whose keys are unique). -/
abbrev MetaBag := List (String × MetaVal)

def lookupMeta (m : MetaBag) (k : String) : Option MetaVal :=
  match m with
  | [] => none
  | (k2, v) :: rest => if k2 = k then some v else lookupMeta rest k

/-- Model of Python `dict.setdefault`: insert `(k, v)` only when `k` is absent. -/
def setdefaultMeta (m : MetaBag) (k : String) (v : MetaVal) : MetaBag :=
  if (lookupMeta m k).isSome then m else m ++ [(k, v)]

theorem lookupMeta_append (m1 m2 : MetaBag) (k : String) :
    lookupMeta (m1 ++ m2) k =
      (match lookupMeta m1 k with
       | some v => some v
       | none => lookupMeta m2 k) := by
  induction m1 with
  | nil => simp [lookupMeta]
  | cons p rest ih =>
    obtain ⟨k2, v⟩ := p
    by_cases h : k2 = k
    · simp [lookupMeta, h]
    · simp only [List.cons_append, lookupMeta, if_neg h]
      exact ih

theorem lookupMeta_setdefault_preserve (m : MetaBag) (k k2 : String) (v v2 : MetaVal)
    (h : lookupMeta m k2 = some v2) :
    lookupMeta (setdefaultMeta m k v) k2 = some v2 := by
  unfold setdefaultMeta
  by_cases hs : (lookupMeta m k).isSome
  · rw [if_pos hs]; exact h
  · rw [if_neg hs, lookupMeta_append, h]

theorem lookupMeta_setdefault_self_isSome (m : MetaBag) (k : String) (v : MetaVal) :
    (lookupMeta (setdefaultMeta m k v) k).isSome := by
  unfold setdefaultMeta
  by_cases hs : (lookupMeta m k).isSome
  · rw [if_pos hs]; exact hs
  · rw [if_neg hs, lookupMeta_append]
    cases hl : lookupMeta m k with
    | some v2 => rw [hl] at hs; simp at hs
    | none => simp [lookupMeta]

theorem lookupMeta_setdefault_of_none (m : MetaBag) (k : String) (v : MetaVal)
    (h : lookupMeta m k = none) :
    lookupMeta (setdefaultMeta m k v) k = some v := by
  unfold setdefaultMeta
  rw [if_neg (by rw [h]; simp), lookupMeta_append, h]
  simp [lookupMeta]

theorem lookupMeta_setdefault_other (m : MetaBag) (k k2 : String) (v : MetaVal)
    (hne : k ≠ k2) :
    lookupMeta (setdefaultMeta m k v) k2 = lookupMeta m k2 := by
  unfold setdefaultMeta
  by_cases hs : (lookupMeta m k).isSome
  · rw [if_pos hs]
  · rw [if_neg hs, lookupMeta_append]
    cases hl : lookupMeta m k2 with
    | some v2 => rfl
    | none => simp [lookupMeta, hne]

/-! ### Data model: `content_chunks` rows and retrieval hits -/

/-- One `content_chunks` row (`app/db/models/content_chunk.py`).  UUID columns
are modelled as their string form; `created_at` is the DB-stamped insertion
time (`server_default now()`), modelled as an integer clock value.  The
generated `tsv` column is derived from `text` and carries no extra data. -/
structure ContentChunk : Type where
  course_id : String
  content_id : String
  category : String
  chunk_index : Nat
  text : String
  meta : MetaBag
  created_at : Int
deriving DecidableEq

/-- A retrieval hit (`app/rag/types.py`, `RagHit`).  The BM25 score is a float
in the source; we model it as a rational. -/
structure RagHit : Type where
  text : String
  metadata : MetaBag
  score : ℚ
deriving DecidableEq

/-! ### Retrieval: `retrieve_course_chunk_hits` (`app/rag/pg_retrieve.py`) -/

/-- Lines 44-47: `cats = [str(c).strip() for c in categories if str(c).strip()]`. -/
def cleanCategories (cs : List String) : List String :=
  (cs.map pyStrip).filter (fun c => c ≠ "")

/-- The effective category filter: `None` when no filter is applied.  Mirrors
the `if categories: ... if cats:` truthiness guards of lines 44-47. -/
def categoryFilter (categories : Option (List String)) : Option (List String) :=
  match categories with
  | none => none
  | some cs =>
    if cs.isEmpty then none
    else if (cleanCategories cs).isEmpty then none else some (cleanCategories cs)

/-- The WHERE clause of the statement built in lines 42-47: always
`course_id == course_id`, plus `category IN cats` when a filter is active. -/
def chunkMatches (course_id : String) (catf : Option (List String))
    (c : ContentChunk) : Bool :=
  (c.course_id == course_id) &&
    (match catf with
     | none => true
     | some cats => cats.contains c.category)

/-- Insertion step of the sort used to model `ORDER BY`. -/
def insertBy {α : Type} (le : α → α → Bool) (a : α) : List α → List α
  | [] => [a]
  | b :: bs => if le a b then a :: b :: bs else b :: insertBy le a bs

/-- Insertion sort modelling the SQL `ORDER BY` of line 49. -/
def sortBy {α : Type} (le : α → α → Bool) : List α → List α
  | [] => []
  | a :: as => insertBy le a (sortBy le as)

/-- `ORDER BY rank DESC, created_at DESC` comparator over scored chunks. -/
def hitLE (a b : ContentChunk × ℚ) : Bool :=
  decide (b.2 < a.2) || (decide (a.2 = b.2) && decide (b.1.created_at ≤ a.1.created_at))

/-- Lines 54-58: copy the stored metadata and `setdefault` the three
citation keys from the row columns. -/
def normalizeHitMeta (c : ContentChunk) : MetaBag :=
  let m := setdefaultMeta c.meta "content_id" (MetaVal.str c.content_id)
  let m := setdefaultMeta m "course_id" (MetaVal.str c.course_id)
  setdefaultMeta m "category" (MetaVal.str c.category)

/-- Line 59: build the `RagHit` for one result row. -/
def chunkToHit (c : ContentChunk) (score : ℚ) : RagHit :=
  { text := c.text, metadata := normalizeHitMeta c, score := score }

/-- The SELECT of lines 42-53 and the row mapping of lines 53-60: filter by
course (and the active category filter), score, order, limit, map to hits. -/
def retrieveQuery (db : List ContentChunk) (bm25 : String → String → ℚ)
    (course_id : String) (q : String) (top_k : Int)
    (catf : Option (List String)) : List RagHit :=
  let filtered := db.filter (chunkMatches course_id catf)
  let scored := filtered.map (fun c => (c, bm25 q c.text))
  let sorted := sortBy hitLE scored
  let taken := sorted.take top_k.toNat
  taken.map (fun p => chunkToHit p.1 p.2)

/-- `retrieve_course_chunk_hits` (lines 13-60).  The database table is the
list `db`; the Postgres BM25 ranking function is the parameter `bm25`,
mapping the (stripped) query and a chunk text to a score. -/
def retrieve_course_chunk_hits (db : List ContentChunk) (bm25 : String → String → ℚ)
    (course_id : String) (query : String) (top_k : Int)
    (categories : Option (List String)) : List RagHit :=
  let q := pyStrip query
  if q = "" then []
  else if top_k ≤ 0 then []
  else retrieveQuery db bm25 course_id q top_k (categoryFilter categories)

theorem mem_insertBy {α : Type} (le : α → α → Bool) (a x : α) :
    ∀ (l : List α), x ∈ insertBy le a l → x = a ∨ x ∈ l := by
  intro l
  induction l with
  | nil =>
    intro h
    simp only [insertBy, List.mem_singleton] at h
    exact Or.inl h
  | cons b bs ih =>
    intro h
    simp only [insertBy] at h
    by_cases hle : le a b
    · rw [if_pos hle, List.mem_cons] at h
      rcases h with h | h
      · exact Or.inl h
      · exact Or.inr h
    · rw [if_neg hle, List.mem_cons] at h
      rcases h with h | h
      · exact Or.inr (by rw [h]; exact List.mem_cons_self b bs)
      · rcases ih h with h2 | h2
        · exact Or.inl h2
        · exact Or.inr (List.mem_cons_of_mem b h2)

theorem mem_sortBy {α : Type} (le : α → α → Bool) (x : α) :
    ∀ (l : List α), x ∈ sortBy le l → x ∈ l := by
  intro l
  induction l with
  | nil => intro h; simp [sortBy] at h
  | cons a as ih =>
    intro h
    simp only [sortBy] at h
    rcases mem_insertBy le a x (sortBy le as) h with h2 | h2
    · rw [h2]; exact List.mem_cons_self a as
    · exact List.mem_cons_of_mem a (ih h2)

/-- Every hit returned by retrieval is built from some chunk of the table
that passes the WHERE clause, scored on the stripped query.  Shared
source-tracking lemma for the retrieval results. -/
theorem retrieve_hit_source (db : List ContentChunk) (bm25 : String → String → ℚ)
    (course_id query : String) (top_k : Int) (categories : Option (List String))
    (hit : RagHit)
    (h : hit ∈ retrieve_course_chunk_hits db bm25 course_id query top_k categories) :
    ∃ c ∈ db, chunkMatches course_id (categoryFilter categories) c = true ∧
      hit = chunkToHit c (bm25 (pyStrip query) c.text) := by
  unfold retrieve_course_chunk_hits at h
  by_cases hq : pyStrip query = ""
  · rw [if_pos hq] at h; simp at h
  · rw [if_neg hq] at h
    by_cases hk : top_k ≤ 0
    · rw [if_pos hk] at h; simp at h
    · rw [if_neg hk] at h
      simp only [retrieveQuery, List.mem_map] at h
      obtain ⟨p, hp, hhit⟩ := h
      have hp2 : p ∈ sortBy hitLE
          ((db.filter (chunkMatches course_id (categoryFilter categories))).map
            (fun c => (c, bm25 (pyStrip query) c.text))) :=
        List.take_subset _ _ hp
      have hp3 := mem_sortBy hitLE p _ hp2
      simp only [List.mem_map] at hp3
      obtain ⟨c, hc, hpc⟩ := hp3
      rw [List.mem_filter] at hc
      refine ⟨c, hc.1, hc.2, ?_⟩
      rw [← hhit, ← hpc]

theorem dropWhile_eq_nil_of_all {α : Type} (p : α → Bool) :
    ∀ (l : List α), (∀ a ∈ l, p a = true) → l.dropWhile p = [] := by
  intro l
  induction l with
  | nil => intro _; rfl
  | cons x xs ih =>
    intro h
    rw [List.dropWhile_cons, if_pos (h x (List.mem_cons_self x xs))]
    exact ih (fun a ha => h a (List.mem_cons_of_mem x ha))

theorem pyStrip_eq_empty_of_all_whitespace (s : String)
    (h : ∀ c ∈ s.data, c.isWhitespace = true) : pyStrip s = "" := by
  unfold pyStrip pyStripList
  rw [dropWhile_eq_nil_of_all Char.isWhitespace s.data h]
  rfl

theorem cleanCategories_map_pyStrip (cats : List String) :
    cleanCategories (cats.map pyStrip) = cleanCategories cats := by
  unfold cleanCategories
  rw [List.map_map]
  congr 1
  exact List.map_congr_left (fun a _ => pyStrip_idem a)

/-- Preservation of a stored metadata value through the three `setdefault`
normalization steps of lines 56-58. -/
theorem normalizeHitMeta_preserves (c : ContentChunk) (k : String) (v : MetaVal)
    (h : lookupMeta c.meta k = some v) :
    lookupMeta (normalizeHitMeta c) k = some v := by
  unfold normalizeHitMeta
  exact lookupMeta_setdefault_preserve _ _ _ _ _
    (lookupMeta_setdefault_preserve _ _ _ _ _
      (lookupMeta_setdefault_preserve _ _ _ _ _ h))

theorem isSome_preserved_setdefault (m : MetaBag) (k k2 : String) (v : MetaVal)
    (h : (lookupMeta m k2).isSome) :
    (lookupMeta (setdefaultMeta m k v) k2).isSome := by
  obtain ⟨v2, hv2⟩ := Option.isSome_iff_exists.mp h
  rw [lookupMeta_setdefault_preserve m k k2 v v2 hv2]
  rfl

/-! ### Claim theorems over the retrieval engine -/

/-- C1: Course isolation of retrieval: for every course id, query, top-k and
categories argument, every hit returned by `retrieve_course_chunk_hits` is
built from a `ContentChunk` row of the table whose `course_id` equals the
requested course id; a chunk of a different course is never returned,
regardless of the query text. -/
theorem course_isolation_of_retrieval (db : List ContentChunk)
    (bm25 : String → String → ℚ) (course_id query : String) (top_k : Int)
    (categories : Option (List String)) :
    ∀ hit ∈ retrieve_course_chunk_hits db bm25 course_id query top_k categories,
      ∃ c ∈ db, c.course_id = course_id ∧
        hit = chunkToHit c (bm25 (pyStrip query) c.text) := by
  intro hit h
  obtain ⟨c, hc, hmatch, heq⟩ :=
    retrieve_hit_source db bm25 course_id query top_k categories hit h
  refine ⟨c, hc, ?_, heq⟩
  unfold chunkMatches at hmatch
  have hpair := (Bool.and_eq_true _ _).mp hmatch
  exact eq_of_beq hpair.1

/-- Fixture: a single-course, single-chunk table used by the witnesses. -/
def exChunk : ContentChunk :=
  { course_id := "course-a", content_id := "content-1", category := "exams",
    chunk_index := 0, text := "Define eigenvalues.",
    meta := [("page_start", MetaVal.num 1)], created_at := 0 }

def exDb : List ContentChunk := [exChunk]

def exBm25 : String → String → ℚ := fun _ _ => 0

theorem course_isolation_of_retrieval_witness :
    ∃ c ∈ exDb, c.course_id = "course-a" ∧
      chunkToHit exChunk 0 = chunkToHit c (exBm25 (pyStrip "eigenvalues") c.text) :=
  course_isolation_of_retrieval exDb exBm25 "course-a" "eigenvalues" 8 none
    (chunkToHit exChunk 0) (by decide)

/-- C6: Retrieval guard conditions: when the query is empty or whitespace-only,
or `top_k ≤ 0`, the call returns `[]` for every table state (so the chunk
store is never consulted) and for every categories argument. -/
theorem retrieval_guard_conditions (db : List ContentChunk)
    (bm25 : String → String → ℚ) (course_id query : String) (top_k : Int)
    (categories : Option (List String))
    (h : (∀ c ∈ query.data, c.isWhitespace = true) ∨ top_k ≤ 0) :
    retrieve_course_chunk_hits db bm25 course_id query top_k categories = [] := by
  unfold retrieve_course_chunk_hits
  rcases h with h | h
  · rw [if_pos (pyStrip_eq_empty_of_all_whitespace query h)]
  · by_cases hq : pyStrip query = ""
    · rw [if_pos hq]
    · rw [if_neg hq, if_pos h]

theorem retrieval_guard_conditions_witness :
    retrieve_course_chunk_hits exDb exBm25 "course-a" "   " 10 none = [] ∧
    retrieve_course_chunk_hits exDb exBm25 "course-a" "eigenvalues" (-3) none = [] :=
  ⟨retrieval_guard_conditions exDb exBm25 "course-a" "   " 10 none
      (Or.inl (by decide)),
   retrieval_guard_conditions exDb exBm25 "course-a" "eigenvalues" (-3) none
      (Or.inr (by decide))⟩

/-- C7: Hit metadata normalization: every returned hit carries the keys
`content_id`, `course_id` and `category`; a key the stored per-chunk metadata
omits is filled from the corresponding row column, and stored metadata values
are never overwritten. -/
theorem hit_metadata_normalization (db : List ContentChunk)
    (bm25 : String → String → ℚ) (course_id query : String) (top_k : Int)
    (categories : Option (List String)) :
    ∀ hit ∈ retrieve_course_chunk_hits db bm25 course_id query top_k categories,
      ∃ c ∈ db,
        (lookupMeta hit.metadata "content_id").isSome ∧
        (lookupMeta hit.metadata "course_id").isSome ∧
        (lookupMeta hit.metadata "category").isSome ∧
        (lookupMeta c.meta "content_id" = none →
          lookupMeta hit.metadata "content_id" = some (MetaVal.str c.content_id)) ∧
        (lookupMeta c.meta "course_id" = none →
          lookupMeta hit.metadata "course_id" = some (MetaVal.str c.course_id)) ∧
        (lookupMeta c.meta "category" = none →
          lookupMeta hit.metadata "category" = some (MetaVal.str c.category)) ∧
        (∀ k v, lookupMeta c.meta k = some v →
          lookupMeta hit.metadata k = some v) := by
  intro hit h
  obtain ⟨c, hc, _, heq⟩ :=
    retrieve_hit_source db bm25 course_id query top_k categories hit h
  have hmeta : hit.metadata = normalizeHitMeta c := by rw [heq]; rfl
  rw [hmeta]
  refine ⟨c, hc, ?_, ?_, ?_, ?_, ?_, ?_, ?_⟩
  · unfold normalizeHitMeta
    exact isSome_preserved_setdefault _ _ _ _
      (isSome_preserved_setdefault _ _ _ _
        (lookupMeta_setdefault_self_isSome _ _ _))
  · unfold normalizeHitMeta
    exact isSome_preserved_setdefault _ _ _ _
      (lookupMeta_setdefault_self_isSome _ _ _)
  · unfold normalizeHitMeta
    exact lookupMeta_setdefault_self_isSome _ _ _
  · intro hnone
    unfold normalizeHitMeta
    exact lookupMeta_setdefault_preserve _ _ _ _ _
      (lookupMeta_setdefault_preserve _ _ _ _ _
        (lookupMeta_setdefault_of_none _ _ _ hnone))
  · intro hnone
    unfold normalizeHitMeta
    refine lookupMeta_setdefault_preserve _ _ _ _ _
      (lookupMeta_setdefault_of_none _ _ _ ?_)
    rw [lookupMeta_setdefault_other _ _ _ _ (by decide)]
    exact hnone
  · intro hnone
    unfold normalizeHitMeta
    refine lookupMeta_setdefault_of_none _ _ _ ?_
    rw [lookupMeta_setdefault_other _ _ _ _ (by decide),
        lookupMeta_setdefault_other _ _ _ _ (by decide)]
    exact hnone
  · intro k v hv
    exact normalizeHitMeta_preserves c k v hv

theorem hit_metadata_normalization_witness :
    ∃ c ∈ exDb,
      (lookupMeta (chunkToHit exChunk 0).metadata "content_id").isSome ∧
      (lookupMeta (chunkToHit exChunk 0).metadata "course_id").isSome ∧
      (lookupMeta (chunkToHit exChunk 0).metadata "category").isSome ∧
      (lookupMeta c.meta "content_id" = none →
        lookupMeta (chunkToHit exChunk 0).metadata "content_id" =
          some (MetaVal.str c.content_id)) ∧
      (lookupMeta c.meta "course_id" = none →
        lookupMeta (chunkToHit exChunk 0).metadata "course_id" =
          some (MetaVal.str c.course_id)) ∧
      (lookupMeta c.meta "category" = none →
        lookupMeta (chunkToHit exChunk 0).metadata "category" =
          some (MetaVal.str c.category)) ∧
      (∀ k v, lookupMeta c.meta k = some v →
        lookupMeta (chunkToHit exChunk 0).metadata k = some v) :=
  hit_metadata_normalization exDb exBm25 "course-a" "eigenvalues" 8 none
    (chunkToHit exChunk 0) (by decide)

/-- C10: Category-filter edge cases: an empty categories list, or one whose
entries are all empty or whitespace-only, behaves exactly like
`categories = None`; and whitespace around category strings is stripped
before filtering, so pre-stripping the list does not change the result. -/
theorem category_filter_edge_cases (db : List ContentChunk)
    (bm25 : String → String → ℚ) (course_id query : String) (top_k : Int)
    (cats : List String) :
    (cleanCategories cats = [] →
      retrieve_course_chunk_hits db bm25 course_id query top_k (some cats) =
        retrieve_course_chunk_hits db bm25 course_id query top_k none) ∧
    retrieve_course_chunk_hits db bm25 course_id query top_k (some cats) =
      retrieve_course_chunk_hits db bm25 course_id query top_k
        (some (cats.map pyStrip)) := by
  have key : ∀ o1 o2 : Option (List String), categoryFilter o1 = categoryFilter o2 →
      retrieve_course_chunk_hits db bm25 course_id query top_k o1 =
        retrieve_course_chunk_hits db bm25 course_id query top_k o2 := by
    intro o1 o2 ho
    unfold retrieve_course_chunk_hits
    rw [ho]
  constructor
  · intro hclean
    apply key
    simp only [categoryFilter]
    by_cases he : cats.isEmpty
    · rw [if_pos he]
    · rw [if_neg he]
      simp only [hclean, List.isEmpty_nil, if_true]
  · apply key
    simp only [categoryFilter]
    have hme : (List.map pyStrip cats).isEmpty = cats.isEmpty := by
      cases cats <;> rfl
    by_cases he : cats.isEmpty
    · rw [if_pos he,
        if_pos (show (List.map pyStrip cats).isEmpty = true from by rw [hme]; exact he)]
    · rw [if_neg he,
        if_neg (show ¬(List.map pyStrip cats).isEmpty = true from by rw [hme]; exact he),
        cleanCategories_map_pyStrip]

theorem category_filter_edge_cases_witness :
    retrieve_course_chunk_hits exDb exBm25 "course-a" "eigenvalues" 8
        (some ["  ", ""]) =
      retrieve_course_chunk_hits exDb exBm25 "course-a" "eigenvalues" 8 none :=
  (category_filter_edge_cases exDb exBm25 "course-a" "eigenvalues" 8
    ["  ", ""]).1 (by decide)

/-! ### Ingestion data model -/

/-- One `document_pages` row (`app/db/models/document_page.py`). -/
structure DocumentPage : Type where
  course_id : String
  content_id : String
  page_no : Nat
  text : String
  text_sha256 : String
deriving DecidableEq

/-- The two retrieval-layer tables touched by ingestion. -/
structure Db : Type where
  pages : List DocumentPage
  chunks : List ContentChunk
deriving DecidableEq

/-- The ingestion-facing fields of a `course_contents` row. -/
structure ContentRecord : Type where
  ingestion_status : String
  ingestion_warning : Option String
  ingestion_error : Option String
deriving DecidableEq

/-- The DB stamps `created_at` (`server_default now()`) at insert time. -/
def stampChunk (now : Int) (c : ContentChunk) : ContentChunk :=
  { c with created_at := now }

/-- Replace-all persistence for one content id: delete then insert inside one
transaction (pdf_ingestion lines 191-199, pptx_ingestion lines 258-265). -/
def replaceAllFor (now : Int) (content_id : String) (newPages : List DocumentPage)
    (newChunks : List ContentChunk) (db : Db) : Db :=
  { pages := db.pages.filter (fun r => !(r.content_id == content_id)) ++ newPages,
    chunks := db.chunks.filter (fun r => !(r.content_id == content_id)) ++
      newChunks.map (stampChunk now) }

/-! ### PDF ingestion (`app/services/pdf_ingestion.py`) -/

structure ExtractedPage : Type where
  page_no : Nat
  text : String
deriving DecidableEq

/-- `_extract_pdf_pages` (lines 45-61).  The pypdf reader is modelled by the
list of per-page extraction outcomes (`none` = `extract_text` raised, which
the code degrades to an empty string); page numbers are the 1-based
positions of line 60. -/
def extractPdfPages (rawPages : List (Option String)) : List ExtractedPage :=
  rawPages.enum.map (fun p => { page_no := p.1 + 1, text := pyStrip (p.2.getD "") })

/-- The per-page chunk texts (pdf lines 169-173, pptx lines 229-233):
split the page text, strip each piece, drop empty pieces.  `split` is the
external `RecursiveCharacterTextSplitter.split_text`. -/
def pageChunkTexts (split : String → List String) (txt : String) : List String :=
  ((split txt).map pyStrip).filter (fun c => c ≠ "")

/-- The chunk metadata of pdf lines 181-186. -/
def pdfChunkMeta (page_no : Nat) (original_filename : String) : MetaBag :=
  [("doc_type", MetaVal.str "pdf"), ("page_start", MetaVal.num page_no),
   ("page_end", MetaVal.num page_no),
   ("original_filename", MetaVal.str original_filename)]

/-- The `ContentChunk` rows built from one PDF page (lines 170-189). -/
def mkPdfChunks (course_id content_id category original_filename : String)
    (startIdx page_no : Nat) (texts : List String) : List ContentChunk :=
  texts.enum.map (fun p =>
    { course_id := course_id, content_id := content_id, category := category,
      chunk_index := startIdx + p.1, text := p.2,
      meta := pdfChunkMeta page_no original_filename, created_at := 0 })

/-- The page/chunk building loop of pdf lines 148-189, threading the running
`chunk_index`. -/
def buildPdfRowsAux (split : String → List String) (sha : String → String)
    (course_id content_id category original_filename : String) :
    List ExtractedPage → Nat → List DocumentPage × List ContentChunk
  | [], _ => ([], [])
  | p :: rest, idx =>
    let txt := pyStrip p.text
    let pageRow : DocumentPage :=
      { course_id := course_id, content_id := content_id, page_no := p.page_no,
        text := txt, text_sha256 := sha txt }
    if txt = "" then
      let r := buildPdfRowsAux split sha course_id content_id category
        original_filename rest idx
      (pageRow :: r.1, r.2)
    else
      let texts := pageChunkTexts split txt
      let newChunks := mkPdfChunks course_id content_id category original_filename
        idx p.page_no texts
      let r := buildPdfRowsAux split sha course_id content_id category
        original_filename rest (idx + texts.length)
      (pageRow :: r.1, newChunks ++ r.2)

def buildPdfRows (split : String → List String) (sha : String → String)
    (course_id content_id category original_filename : String)
    (pages : List ExtractedPage) : List DocumentPage × List ContentChunk :=
  buildPdfRowsAux split sha course_id content_id category original_filename pages 0

/-- `ingest_pdf_content_to_db` main path (lines 104-214) for a PDF content
row with an attached file: mark `processing` (clearing warning/error),
download (the S3 call is the `download` argument; `.error e` = the call
raised `e`), extract, build rows, replace-all persist, and decide the
terminal status from the extracted text volume.  `now` is the DB clock
stamping `created_at` on the inserted chunks. -/
def runPdfIngestion (split : String → List String) (sha : String → String)
    (course_id content_id category original_filename : String) (now : Int)
    (download : Except String (List (Option String)))
    (db : Db) (cr : ContentRecord) : Db × ContentRecord :=
  let rec1 : ContentRecord :=
    { cr with
      ingestion_status := "processing"
      ingestion_warning := none
      ingestion_error := none }
  match download with
  | Except.error e =>
    (db, { rec1 with ingestion_status := "error", ingestion_error := some e })
  | Except.ok rawPages =>
    let pages := extractPdfPages rawPages
    if pages.isEmpty then
      (db, { rec1 with
             ingestion_status := "warning"
             ingestion_warning := some "no_pages_extracted" })
    else
      let rows := buildPdfRows split sha course_id content_id category
        original_filename pages
      let db2 := replaceAllFor now content_id rows.1 rows.2 db
      let total_chars := (rows.1.map (fun r => (pyStrip r.text).length)).sum
      if total_chars < 200 then
        (db2, { rec1 with
                ingestion_status := "warning"
                ingestion_warning := some "low_text_extracted" })
      else
        (db2, { rec1 with
                ingestion_status := "done"
                ingestion_warning := none
                ingestion_error := none })

/-! ### PPTX ingestion (`app/services/pptx_ingestion.py`) -/

structure ExtractedSlide : Type where
  slide_no : Nat
  title : String
  slide_text : String
  notes_text : String
deriving DecidableEq

/-- The per-slide aggregate the opaque python-pptx traversal produces
before numbering. -/
structure RawSlide : Type where
  title : String
  slide_text : String
  notes_text : String
deriving DecidableEq

/-- `_extract_pptx_slides` (lines 66-148): slide numbers are the 1-based
enumeration of line 107; title, body and notes are stripped aggregates. -/
def extractPptxSlides (raw : List RawSlide) : List ExtractedSlide :=
  raw.enum.map (fun p =>
    { slide_no := p.1 + 1, title := pyStrip p.2.title,
      slide_text := pyStrip p.2.slide_text, notes_text := pyStrip p.2.notes_text })

/-- `_join_nonempty` (lines 57-63). -/
def join_nonempty (parts : List String) (sep : String) : String :=
  pyStrip (sep.intercalate ((parts.map pyStrip).filter (fun t => t ≠ "")))

/-- The combined slide text of lines 203-214 (header with optional title,
body, and a `Notes:` block). -/
def slideCombined (s : ExtractedSlide) : String :=
  let header :=
    if s.title ≠ "" then "Slide " ++ toString s.slide_no ++ " — " ++ s.title
    else "Slide " ++ toString s.slide_no
  join_nonempty
    [header, s.slide_text,
     if s.notes_text ≠ "" then "Notes:\n" ++ s.notes_text else ""] "\n"

/-- The chunk metadata of pptx lines 234-245. -/
def pptxChunkMeta (s : ExtractedSlide) (original_filename : String)
    (low_text : Bool) : MetaBag :=
  let m : MetaBag :=
    [("doc_type", MetaVal.str "slides"), ("source_kind", MetaVal.str "pptx"),
     ("page_start", MetaVal.num s.slide_no), ("page_end", MetaVal.num s.slide_no),
     ("slide_no", MetaVal.num s.slide_no),
     ("original_filename", MetaVal.str original_filename)]
  let m2 := if s.title ≠ "" then m ++ [("title", MetaVal.str s.title)] else m
  if low_text then m2 ++ [("extraction_warning", MetaVal.str "low_text_extracted")]
  else m2

/-- The total character count of pptx lines 193-196 (pre-combination,
un-stripped lengths). -/
def pptxTotalChars (slides : List ExtractedSlide) : Nat :=
  (slides.map (fun s => s.title.length + s.slide_text.length + s.notes_text.length)).sum

/-- The `ContentChunk` rows built from one slide (pptx lines 229-256). -/
def mkPptxChunks (course_id content_id category original_filename : String)
    (low_text : Bool) (startIdx : Nat) (s : ExtractedSlide)
    (texts : List String) : List ContentChunk :=
  texts.enum.map (fun p =>
    { course_id := course_id, content_id := content_id, category := category,
      chunk_index := startIdx + p.1, text := p.2,
      meta := pptxChunkMeta s original_filename low_text, created_at := 0 })

/-- The page/chunk building loop of pptx lines 198-256. -/
def buildPptxRowsAux (split : String → List String) (sha : String → String)
    (course_id content_id category original_filename : String) (low_text : Bool) :
    List ExtractedSlide → Nat → List DocumentPage × List ContentChunk
  | [], _ => ([], [])
  | s :: rest, idx =>
    let combined := pyStrip (slideCombined s)
    let pageRow : DocumentPage :=
      { course_id := course_id, content_id := content_id, page_no := s.slide_no,
        text := combined, text_sha256 := sha combined }
    if combined = "" then
      let r := buildPptxRowsAux split sha course_id content_id category
        original_filename low_text rest idx
      (pageRow :: r.1, r.2)
    else
      let texts := pageChunkTexts split combined
      let newChunks := mkPptxChunks course_id content_id category original_filename
        low_text idx s texts
      let r := buildPptxRowsAux split sha course_id content_id category
        original_filename low_text rest (idx + texts.length)
      (pageRow :: r.1, newChunks ++ r.2)

def buildPptxRows (split : String → List String) (sha : String → String)
    (course_id content_id category original_filename : String)
    (slides : List ExtractedSlide) : List DocumentPage × List ContentChunk :=
  buildPptxRowsAux split sha course_id content_id category original_filename
    (decide (pptxTotalChars slides < 200)) slides 0

/-- `ingest_pptx_content_to_db` main path (lines 158-265).  Unlike the PDF
job it never touches `ingestion_status`: a failed download (lines 180-185)
and an empty slide deck (lines 187-189) return silently, leaving the
content record unchanged. -/
def runPptxIngestion (split : String → List String) (sha : String → String)
    (course_id content_id category original_filename : String) (now : Int)
    (download : Except String (List RawSlide))
    (db : Db) (cr : ContentRecord) : Db × ContentRecord :=
  match download with
  | Except.error _ => (db, cr)
  | Except.ok raw =>
    let slides := extractPptxSlides raw
    if slides.isEmpty then (db, cr)
    else
      let rows := buildPptxRows split sha course_id content_id category
        original_filename slides
      (replaceAllFor now content_id rows.1 rows.2 db, cr)

/-! ### Ingestion lemmas -/

/-- The identity of a chunk row minus the DB-stamped `created_at` column:
this is what "the same rows" means across two ingestion runs executed at
different times. -/
def chunkData (c : ContentChunk) : String × String × String × Nat × String × MetaBag :=
  (c.course_id, c.content_id, c.category, c.chunk_index, c.text, c.meta)

theorem filter_idem {α : Type} (p : α → Bool) (xs : List α) :
    (xs.filter p).filter p = xs.filter p := by
  induction xs with
  | nil => rfl
  | cons x xs ih =>
    by_cases hx : p x
    · rw [List.filter_cons_of_pos hx, List.filter_cons_of_pos hx, ih]
    · rw [List.filter_cons_of_neg hx, ih]

theorem filter_eq_nil_of_false {α : Type} (p : α → Bool) (ys : List α)
    (h : ∀ y ∈ ys, p y = false) : ys.filter p = [] := by
  rw [List.filter_eq_nil_iff]
  intro a ha
  rw [h a ha]
  simp

/-- Applying replace-all twice with the same computed rows keeps the pages
table unchanged and reproduces the chunk rows up to the insert timestamp. -/
theorem replaceAllFor_twice (n1 n2 : Int) (cid : String)
    (prs : List DocumentPage) (crs : List ContentChunk) (db : Db)
    (hp : ∀ r ∈ prs, r.content_id = cid) (hc : ∀ c ∈ crs, c.content_id = cid) :
    (replaceAllFor n2 cid prs crs (replaceAllFor n1 cid prs crs db)).pages =
      (replaceAllFor n1 cid prs crs db).pages ∧
    (replaceAllFor n2 cid prs crs (replaceAllFor n1 cid prs crs db)).chunks.map
        chunkData =
      (replaceAllFor n1 cid prs crs db).chunks.map chunkData := by
  unfold replaceAllFor
  constructor
  · show (db.pages.filter _ ++ prs).filter _ ++ prs = db.pages.filter _ ++ prs
    rw [List.filter_append, filter_idem,
      filter_eq_nil_of_false _ prs (by intro y hy; rw [hp y hy]; simp),
      List.append_nil]
  · show ((db.chunks.filter _ ++ crs.map (stampChunk n1)).filter _ ++
        crs.map (stampChunk n2)).map chunkData =
      (db.chunks.filter _ ++ crs.map (stampChunk n1)).map chunkData
    rw [List.filter_append, filter_idem,
      filter_eq_nil_of_false _ (crs.map (stampChunk n1)) (by
        intro y hy
        obtain ⟨c, hcm, rfl⟩ := List.mem_map.mp hy
        have hcid : c.content_id = cid := hc c hcm
        simp [stampChunk, hcid]),
      List.append_nil, List.map_append, List.map_append, List.map_map,
      List.map_map]
    congr 1

/-- Every row built by the PDF loop carries the ingested content id. -/
theorem buildPdfRowsAux_content_id (split : String → List String)
    (sha : String → String) (co ci cat f : String) :
    ∀ (pages : List ExtractedPage) (idx : Nat),
      (∀ r ∈ (buildPdfRowsAux split sha co ci cat f pages idx).1,
        r.content_id = ci) ∧
      (∀ c ∈ (buildPdfRowsAux split sha co ci cat f pages idx).2,
        c.content_id = ci) := by
  intro pages
  induction pages with
  | nil =>
    intro idx
    constructor <;> (intro x hx; simp [buildPdfRowsAux] at hx)
  | cons p rest ih =>
    intro idx
    simp only [buildPdfRowsAux]
    by_cases ht : pyStrip p.text = ""
    · rw [if_pos ht]
      constructor
      · intro r hr
        rcases List.mem_cons.mp hr with hr | hr
        · rw [hr]
        · exact (ih idx).1 r hr
      · intro c hcm
        exact (ih idx).2 c hcm
    · rw [if_neg ht]
      constructor
      · intro r hr
        rcases List.mem_cons.mp hr with hr | hr
        · rw [hr]
        · exact (ih _).1 r hr
      · intro c hcm
        rcases List.mem_append.mp hcm with hcm | hcm
        · obtain ⟨a, _, rfl⟩ := List.mem_map.mp hcm
          rfl
        · exact (ih _).2 c hcm

/-- Every row built by the PPTX loop carries the ingested content id. -/
theorem buildPptxRowsAux_content_id (split : String → List String)
    (sha : String → String) (co ci cat f : String) (low : Bool) :
    ∀ (slides : List ExtractedSlide) (idx : Nat),
      (∀ r ∈ (buildPptxRowsAux split sha co ci cat f low slides idx).1,
        r.content_id = ci) ∧
      (∀ c ∈ (buildPptxRowsAux split sha co ci cat f low slides idx).2,
        c.content_id = ci) := by
  intro slides
  induction slides with
  | nil =>
    intro idx
    constructor <;> (intro x hx; simp [buildPptxRowsAux] at hx)
  | cons s rest ih =>
    intro idx
    simp only [buildPptxRowsAux]
    by_cases ht : pyStrip (slideCombined s) = ""
    · rw [if_pos ht]
      constructor
      · intro r hr
        rcases List.mem_cons.mp hr with hr | hr
        · rw [hr]
        · exact (ih idx).1 r hr
      · intro c hcm
        exact (ih idx).2 c hcm
    · rw [if_neg ht]
      constructor
      · intro r hr
        rcases List.mem_cons.mp hr with hr | hr
        · rw [hr]
        · exact (ih _).1 r hr
      · intro c hcm
        rcases List.mem_append.mp hcm with hcm | hcm
        · obtain ⟨a, _, rfl⟩ := List.mem_map.mp hcm
          rfl
        · exact (ih _).2 c hcm

/-- Closed-form description of a PDF ingestion run whose download succeeded. -/
theorem runPdfIngestion_ok (split : String → List String) (sha : String → String)
    (co ci cat f : String) (now : Int) (raw : List (Option String))
    (db : Db) (cr : ContentRecord) :
    runPdfIngestion split sha co ci cat f now (Except.ok raw) db cr =
      if (extractPdfPages raw).isEmpty then
        (db, ⟨"warning", some "no_pages_extracted", none⟩)
      else if ((buildPdfRows split sha co ci cat f (extractPdfPages raw)).1.map
            (fun r => (pyStrip r.text).length)).sum < 200 then
        (replaceAllFor now ci
            (buildPdfRows split sha co ci cat f (extractPdfPages raw)).1
            (buildPdfRows split sha co ci cat f (extractPdfPages raw)).2 db,
         ⟨"warning", some "low_text_extracted", none⟩)
      else
        (replaceAllFor now ci
            (buildPdfRows split sha co ci cat f (extractPdfPages raw)).1
            (buildPdfRows split sha co ci cat f (extractPdfPages raw)).2 db,
         ⟨"done", none, none⟩) := rfl

/-- Closed-form description of a PPTX ingestion run whose download
succeeded. -/
theorem runPptxIngestion_ok (split : String → List String) (sha : String → String)
    (co ci cat f : String) (now : Int) (rawS : List RawSlide)
    (db : Db) (cr : ContentRecord) :
    runPptxIngestion split sha co ci cat f now (Except.ok rawS) db cr =
      if (extractPptxSlides rawS).isEmpty then (db, cr)
      else
        (replaceAllFor now ci
            (buildPptxRows split sha co ci cat f (extractPptxSlides rawS)).1
            (buildPptxRows split sha co ci cat f (extractPptxSlides rawS)).2 db,
         cr) := rfl

/-! ### C2: idempotence of ingestion -/

/-- C2: Ingestion idempotence: running an ingestion job twice in succession
on an unchanged source (the same downloaded bytes, hence the same extracted
pages/slides) leaves the pages table exactly as after one run, reproduces
the chunk rows exactly up to the DB-stamped insert time, and reports the
same terminal status — because each run deletes all rows for the content id
before inserting the freshly computed rows. -/
theorem ingestion_idempotent (split : String → List String) (sha : String → String)
    (co ci cat f : String) (n1 n2 : Int) (raw : List (Option String))
    (rawS : List RawSlide) (db : Db) (cr : ContentRecord) :
    ((runPdfIngestion split sha co ci cat f n2 (Except.ok raw)
        (runPdfIngestion split sha co ci cat f n1 (Except.ok raw) db cr).1
        (runPdfIngestion split sha co ci cat f n1 (Except.ok raw) db cr).2).1.pages =
      (runPdfIngestion split sha co ci cat f n1 (Except.ok raw) db cr).1.pages ∧
     (runPdfIngestion split sha co ci cat f n2 (Except.ok raw)
        (runPdfIngestion split sha co ci cat f n1 (Except.ok raw) db cr).1
        (runPdfIngestion split sha co ci cat f n1 (Except.ok raw) db cr).2).1.chunks.map
          chunkData =
      (runPdfIngestion split sha co ci cat f n1 (Except.ok raw) db cr).1.chunks.map
        chunkData ∧
     (runPdfIngestion split sha co ci cat f n2 (Except.ok raw)
        (runPdfIngestion split sha co ci cat f n1 (Except.ok raw) db cr).1
        (runPdfIngestion split sha co ci cat f n1 (Except.ok raw) db cr).2).2 =
      (runPdfIngestion split sha co ci cat f n1 (Except.ok raw) db cr).2) ∧
    ((runPptxIngestion split sha co ci cat f n2 (Except.ok rawS)
        (runPptxIngestion split sha co ci cat f n1 (Except.ok rawS) db cr).1
        (runPptxIngestion split sha co ci cat f n1 (Except.ok rawS) db cr).2).1.pages =
      (runPptxIngestion split sha co ci cat f n1 (Except.ok rawS) db cr).1.pages ∧
     (runPptxIngestion split sha co ci cat f n2 (Except.ok rawS)
        (runPptxIngestion split sha co ci cat f n1 (Except.ok rawS) db cr).1
        (runPptxIngestion split sha co ci cat f n1 (Except.ok rawS) db cr).2).1.chunks.map
          chunkData =
      (runPptxIngestion split sha co ci cat f n1 (Except.ok rawS) db cr).1.chunks.map
        chunkData ∧
     (runPptxIngestion split sha co ci cat f n2 (Except.ok rawS)
        (runPptxIngestion split sha co ci cat f n1 (Except.ok rawS) db cr).1
        (runPptxIngestion split sha co ci cat f n1 (Except.ok rawS) db cr).2).2 =
      (runPptxIngestion split sha co ci cat f n1 (Except.ok rawS) db cr).2) := by
  have hpdf := buildPdfRowsAux_content_id split sha co ci cat f (extractPdfPages raw) 0
  have hpptx := buildPptxRowsAux_content_id split sha co ci cat f
    (decide (pptxTotalChars (extractPptxSlides rawS) < 200)) (extractPptxSlides rawS) 0
  constructor
  · by_cases hpe : (extractPdfPages raw).isEmpty
    · simp [runPdfIngestion_ok, hpe]
    · by_cases htc : ((buildPdfRows split sha co ci cat f (extractPdfPages raw)).1.map
          (fun r => (pyStrip r.text).length)).sum < 200
      · simp only [runPdfIngestion_ok, hpe, htc, if_true, if_false]
        have h2 := replaceAllFor_twice n1 n2 ci
          (buildPdfRows split sha co ci cat f (extractPdfPages raw)).1
          (buildPdfRows split sha co ci cat f (extractPdfPages raw)).2 db hpdf.1 hpdf.2
        exact ⟨h2.1, h2.2, rfl⟩
      · simp only [runPdfIngestion_ok, hpe, htc, if_true, if_false]
        have h2 := replaceAllFor_twice n1 n2 ci
          (buildPdfRows split sha co ci cat f (extractPdfPages raw)).1
          (buildPdfRows split sha co ci cat f (extractPdfPages raw)).2 db hpdf.1 hpdf.2
        exact ⟨h2.1, h2.2, rfl⟩
  · by_cases hse : (extractPptxSlides rawS).isEmpty
    · simp [runPptxIngestion_ok, hse]
    · simp only [runPptxIngestion_ok, hse, if_true, if_false]
      have h2 := replaceAllFor_twice n1 n2 ci
        (buildPptxRows split sha co ci cat f (extractPptxSlides rawS)).1
        (buildPptxRows split sha co ci cat f (extractPptxSlides rawS)).2 db hpptx.1 hpptx.2
      exact ⟨h2.1, h2.2, rfl⟩

/-! ### C5: behaviour on download failure -/

/-- C5 (amended): when the object-storage download raises, the PDF job sets
the content record to status `error` with the exception message in
`ingestion_error` and leaves the retrieval tables untouched, while the PPTX
job returns silently, leaving both the record (its status included) and the
tables untouched; neither path persists any rows. -/
theorem download_failure_handling (split : String → List String)
    (sha : String → String) (co ci cat f : String) (now : Int) (e : String)
    (db : Db) (cr : ContentRecord) :
    runPdfIngestion split sha co ci cat f now (Except.error e) db cr =
      (db, ⟨"error", none, some e⟩) ∧
    runPptxIngestion split sha co ci cat f now (Except.error e) db cr = (db, cr) :=
  ⟨rfl, rfl⟩

def wSplit : String → List String := fun t => [t]

def wSha : String → String := fun s => s

def db0 : Db := ⟨[], []⟩

def cr0 : ContentRecord := ⟨"queued", none, none⟩

/-- C5 fails as stated: a PPTX download failure does not set
`ingestion_status = "error"` — the job returns silently and the status and
error fields keep their prior values. -/
theorem pptx_download_failure_counterexample :
    (runPptxIngestion wSplit wSha "course-a" "content-2" "notes" "deck.pptx" 0
        (Except.error "connection reset") db0 cr0).2.ingestion_status = "queued" ∧
    (runPptxIngestion wSplit wSha "course-a" "content-2" "notes" "deck.pptx" 0
        (Except.error "connection reset") db0 cr0).2.ingestion_error = none ∧
    "queued" ≠ "error" := by
  refine ⟨rfl, rfl, ?_⟩
  decide

/-! ### C4: PDF terminal status taxonomy -/

theorem buildPdfRowsAux_total (split : String → List String)
    (sha : String → String) (co ci cat f : String) :
    ∀ (pages : List ExtractedPage) (idx : Nat),
      (((buildPdfRowsAux split sha co ci cat f pages idx).1).map
          (fun r => (pyStrip r.text).length)).sum =
        (pages.map (fun p => (pyStrip p.text).length)).sum := by
  intro pages
  induction pages with
  | nil => intro idx; rfl
  | cons p rest ih =>
    intro idx
    simp only [buildPdfRowsAux]
    by_cases ht : pyStrip p.text = ""
    · rw [if_pos ht]
      simp only [List.map_cons, List.sum_cons]
      rw [ih idx]
      show (pyStrip (pyStrip p.text)).length + _ = _
      rw [pyStrip_idem]
    · rw [if_neg ht]
      simp only [List.map_cons, List.sum_cons]
      rw [ih]
      show (pyStrip (pyStrip p.text)).length + _ = _
      rw [pyStrip_idem]

theorem extractPdfPages_text_stripped (raw : List (Option String)) :
    ∀ p ∈ extractPdfPages raw, pyStrip p.text = p.text := by
  intro p hp
  obtain ⟨a, _, rfl⟩ := List.mem_map.mp hp
  exact pyStrip_idem _

/-- The `total_chars` computed by the job from the built page rows (pdf line
202) equals the total length of the extracted page texts. -/
theorem pdf_total_chars_eq (split : String → List String) (sha : String → String)
    (co ci cat f : String) (raw : List (Option String)) :
    ((buildPdfRows split sha co ci cat f (extractPdfPages raw)).1.map
        (fun r => (pyStrip r.text).length)).sum =
      ((extractPdfPages raw).map (fun p => p.text.length)).sum := by
  unfold buildPdfRows
  rw [buildPdfRowsAux_total split sha co ci cat f (extractPdfPages raw) 0]
  have h2 : (extractPdfPages raw).map (fun p => (pyStrip p.text).length) =
      (extractPdfPages raw).map (fun p => p.text.length) :=
    List.map_congr_left (fun p hp => by
      rw [extractPdfPages_text_stripped raw p hp])
  rw [h2]

/-- C4 (amended): Low-text warning taxonomy for PDF ingestion: for a content
item whose download and extraction succeed, a run ends with
`warning`/`no_pages_extracted` exactly when the extractor yields zero pages;
with at least one page and under 200 total extracted characters (including
the case where no page contains any text) it ends with
`warning`/`low_text_extracted`; with 200 or more characters it ends `done`. -/
theorem pdf_ingestion_terminal_status (split : String → List String)
    (sha : String → String) (co ci cat f : String) (now : Int)
    (raw : List (Option String)) (db : Db) (cr : ContentRecord) :
    (extractPdfPages raw = [] →
      (runPdfIngestion split sha co ci cat f now (Except.ok raw) db cr).2 =
        ⟨"warning", some "no_pages_extracted", none⟩) ∧
    (extractPdfPages raw ≠ [] →
      ((extractPdfPages raw).map (fun p => p.text.length)).sum < 200 →
      (runPdfIngestion split sha co ci cat f now (Except.ok raw) db cr).2 =
        ⟨"warning", some "low_text_extracted", none⟩) ∧
    (extractPdfPages raw ≠ [] →
      200 ≤ ((extractPdfPages raw).map (fun p => p.text.length)).sum →
      (runPdfIngestion split sha co ci cat f now (Except.ok raw) db cr).2 =
        ⟨"done", none, none⟩) := by
  rw [runPdfIngestion_ok]
  refine ⟨?_, ?_, ?_⟩
  · intro h
    rw [if_pos (List.isEmpty_iff.mpr h)]
  · intro h htc
    rw [if_neg (fun he => h (List.isEmpty_iff.mp he)),
      if_pos (by rw [pdf_total_chars_eq]; exact htc)]
  · intro h htc
    rw [if_neg (fun he => h (List.isEmpty_iff.mp he)),
      if_neg (by rw [pdf_total_chars_eq]; omega)]

theorem pdf_ingestion_terminal_status_witness :
    (runPdfIngestion wSplit wSha "course-a" "content-1" "notes" "lec.pdf" 0
        (Except.ok []) db0 cr0).2 = ⟨"warning", some "no_pages_extracted", none⟩ ∧
    (runPdfIngestion wSplit wSha "course-a" "content-1" "notes" "lec.pdf" 0
        (Except.ok [some "hi"]) db0 cr0).2 =
      ⟨"warning", some "low_text_extracted", none⟩ :=
  ⟨(pdf_ingestion_terminal_status wSplit wSha "course-a" "content-1" "notes"
      "lec.pdf" 0 [] db0 cr0).1 (by decide),
   ((pdf_ingestion_terminal_status wSplit wSha "course-a" "content-1" "notes"
      "lec.pdf" 0 [some "hi"] db0 cr0).2).1 (by decide) (by decide)⟩

/-- C4 fails as stated: a PDF with one page and zero extracted text (so zero
pages contain any text) ends with warning `low_text_extracted`, not
`no_pages_extracted` — the latter fires only when the extractor yields zero
pages. -/
theorem pdf_zero_text_pages_counterexample :
    (runPdfIngestion wSplit wSha "course-a" "content-1" "notes" "lec.pdf" 0
        (Except.ok [some ""]) db0 cr0).2 =
      ⟨"warning", some "low_text_extracted", none⟩ ∧
    some "low_text_extracted" ≠ some "no_pages_extracted" := by
  refine ⟨rfl, ?_⟩
  decide

/-! ### C8: page isolation of built chunks -/

theorem lookupMeta_append_some (m1 m2 : MetaBag) (k : String) (v : MetaVal)
    (h : lookupMeta m1 k = some v) : lookupMeta (m1 ++ m2) k = some v := by
  rw [lookupMeta_append, h]

theorem lookup_pdfChunkMeta_page_start (n : Nat) (f : String) :
    lookupMeta (pdfChunkMeta n f) "page_start" = some (MetaVal.num n) := by
  simp [pdfChunkMeta, lookupMeta]

theorem lookup_pdfChunkMeta_page_end (n : Nat) (f : String) :
    lookupMeta (pdfChunkMeta n f) "page_end" = some (MetaVal.num n) := by
  simp [pdfChunkMeta, lookupMeta]

theorem lookup_pptxChunkMeta_page_start (s : ExtractedSlide) (f : String)
    (low : Bool) :
    lookupMeta (pptxChunkMeta s f low) "page_start" =
      some (MetaVal.num s.slide_no) := by
  have hbase : lookupMeta
      [("doc_type", MetaVal.str "slides"), ("source_kind", MetaVal.str "pptx"),
       ("page_start", MetaVal.num s.slide_no), ("page_end", MetaVal.num s.slide_no),
       ("slide_no", MetaVal.num s.slide_no),
       ("original_filename", MetaVal.str f)] "page_start" =
      some (MetaVal.num s.slide_no) := by
    simp [lookupMeta]
  simp only [pptxChunkMeta]
  by_cases ht : s.title ≠ ""
  · rw [if_pos ht]
    by_cases hl : low
    · rw [if_pos hl]
      exact lookupMeta_append_some _ _ _ _ (lookupMeta_append_some _ _ _ _ hbase)
    · rw [if_neg hl]
      exact lookupMeta_append_some _ _ _ _ hbase
  · rw [if_neg ht]
    by_cases hl : low
    · rw [if_pos hl]
      exact lookupMeta_append_some _ _ _ _ hbase
    · rw [if_neg hl]
      exact hbase

theorem lookup_pptxChunkMeta_page_end (s : ExtractedSlide) (f : String)
    (low : Bool) :
    lookupMeta (pptxChunkMeta s f low) "page_end" =
      some (MetaVal.num s.slide_no) := by
  have hbase : lookupMeta
      [("doc_type", MetaVal.str "slides"), ("source_kind", MetaVal.str "pptx"),
       ("page_start", MetaVal.num s.slide_no), ("page_end", MetaVal.num s.slide_no),
       ("slide_no", MetaVal.num s.slide_no),
       ("original_filename", MetaVal.str f)] "page_end" =
      some (MetaVal.num s.slide_no) := by
    simp [lookupMeta]
  simp only [pptxChunkMeta]
  by_cases ht : s.title ≠ ""
  · rw [if_pos ht]
    by_cases hl : low
    · rw [if_pos hl]
      exact lookupMeta_append_some _ _ _ _ (lookupMeta_append_some _ _ _ _ hbase)
    · rw [if_neg hl]
      exact lookupMeta_append_some _ _ _ _ hbase
  · rw [if_neg ht]
    by_cases hl : low
    · rw [if_pos hl]
      exact lookupMeta_append_some _ _ _ _ hbase
    · rw [if_neg hl]
      exact hbase

theorem mem_mkPdfChunks (co ci cat f : String) (si n : Nat) (texts : List String)
    (c : ContentChunk) (h : c ∈ mkPdfChunks co ci cat f si n texts) :
    c.meta = pdfChunkMeta n f ∧ c.text ∈ texts := by
  unfold mkPdfChunks at h
  obtain ⟨a, ha, rfl⟩ := List.mem_map.mp h
  refine ⟨rfl, ?_⟩
  have h2 : a.2 ∈ texts.enum.map Prod.snd := List.mem_map_of_mem Prod.snd ha
  rwa [List.enum_map_snd] at h2

theorem mem_mkPptxChunks (co ci cat f : String) (low : Bool) (si : Nat)
    (s : ExtractedSlide) (texts : List String) (c : ContentChunk)
    (h : c ∈ mkPptxChunks co ci cat f low si s texts) :
    c.meta = pptxChunkMeta s f low ∧ c.text ∈ texts := by
  unfold mkPptxChunks at h
  obtain ⟨a, ha, rfl⟩ := List.mem_map.mp h
  refine ⟨rfl, ?_⟩
  have h2 : a.2 ∈ texts.enum.map Prod.snd := List.mem_map_of_mem Prod.snd ha
  rwa [List.enum_map_snd] at h2

theorem buildPdfRowsAux_chunk_source (split : String → List String)
    (sha : String → String) (co ci cat f : String) :
    ∀ (pages : List ExtractedPage) (idx : Nat),
      ∀ c ∈ (buildPdfRowsAux split sha co ci cat f pages idx).2,
        ∃ p ∈ pages,
          lookupMeta c.meta "page_start" = some (MetaVal.num p.page_no) ∧
          lookupMeta c.meta "page_end" = some (MetaVal.num p.page_no) ∧
          c.text ∈ pageChunkTexts split (pyStrip p.text) := by
  intro pages
  induction pages with
  | nil => intro idx c hcm; simp [buildPdfRowsAux] at hcm
  | cons p rest ih =>
    intro idx c hcm
    simp only [buildPdfRowsAux] at hcm
    by_cases ht : pyStrip p.text = ""
    · rw [if_pos ht] at hcm
      obtain ⟨q, hq, hprops⟩ := ih idx c hcm
      exact ⟨q, List.mem_cons_of_mem p hq, hprops⟩
    · rw [if_neg ht] at hcm
      rcases List.mem_append.mp hcm with hcm | hcm
      · obtain ⟨hmeta, htext⟩ := mem_mkPdfChunks co ci cat f idx p.page_no _ c hcm
        refine ⟨p, List.mem_cons_self p rest, ?_, ?_, htext⟩
        · rw [hmeta, lookup_pdfChunkMeta_page_start]
        · rw [hmeta, lookup_pdfChunkMeta_page_end]
      · obtain ⟨q, hq, hprops⟩ := ih _ c hcm
        exact ⟨q, List.mem_cons_of_mem p hq, hprops⟩

theorem buildPptxRowsAux_chunk_source (split : String → List String)
    (sha : String → String) (co ci cat f : String) (low : Bool) :
    ∀ (slides : List ExtractedSlide) (idx : Nat),
      ∀ c ∈ (buildPptxRowsAux split sha co ci cat f low slides idx).2,
        ∃ s ∈ slides,
          lookupMeta c.meta "page_start" = some (MetaVal.num s.slide_no) ∧
          lookupMeta c.meta "page_end" = some (MetaVal.num s.slide_no) ∧
          c.text ∈ pageChunkTexts split (pyStrip (slideCombined s)) := by
  intro slides
  induction slides with
  | nil => intro idx c hcm; simp [buildPptxRowsAux] at hcm
  | cons s rest ih =>
    intro idx c hcm
    simp only [buildPptxRowsAux] at hcm
    by_cases ht : pyStrip (slideCombined s) = ""
    · rw [if_pos ht] at hcm
      obtain ⟨q, hq, hprops⟩ := ih idx c hcm
      exact ⟨q, List.mem_cons_of_mem s hq, hprops⟩
    · rw [if_neg ht] at hcm
      rcases List.mem_append.mp hcm with hcm | hcm
      · obtain ⟨hmeta, htext⟩ := mem_mkPptxChunks co ci cat f low idx s _ c hcm
        refine ⟨s, List.mem_cons_self s rest, ?_, ?_, htext⟩
        · rw [hmeta, lookup_pptxChunkMeta_page_start]
        · rw [hmeta, lookup_pptxChunkMeta_page_end]
      · obtain ⟨q, hq, hprops⟩ := ih _ c hcm
        exact ⟨q, List.mem_cons_of_mem s hq, hprops⟩

theorem extractPdfPages_one_based (raw : List (Option String)) :
    ∀ p ∈ extractPdfPages raw, 1 ≤ p.page_no := by
  intro p hp
  obtain ⟨a, _, rfl⟩ := List.mem_map.mp hp
  exact Nat.succ_le_succ (Nat.zero_le _)

theorem extractPptxSlides_one_based (raw : List RawSlide) :
    ∀ s ∈ extractPptxSlides raw, 1 ≤ s.slide_no := by
  intro s hs
  obtain ⟨a, _, rfl⟩ := List.mem_map.mp hs
  exact Nat.succ_le_succ (Nat.zero_le _)

/-- C8: Page isolation: every `ContentChunk` built by PDF or PPTX ingestion
carries `page_start = page_end =` the 1-based number of the single
page/slide whose (split) text the chunk came from; no chunk spans more than
one page. -/
theorem page_isolation (split : String → List String) (sha : String → String)
    (co ci cat f : String) (raw : List (Option String)) (rawS : List RawSlide) :
    (∀ c ∈ (buildPdfRows split sha co ci cat f (extractPdfPages raw)).2,
      ∃ p ∈ extractPdfPages raw, 1 ≤ p.page_no ∧
        lookupMeta c.meta "page_start" = some (MetaVal.num p.page_no) ∧
        lookupMeta c.meta "page_end" = some (MetaVal.num p.page_no) ∧
        c.text ∈ pageChunkTexts split (pyStrip p.text)) ∧
    (∀ c ∈ (buildPptxRows split sha co ci cat f (extractPptxSlides rawS)).2,
      ∃ s ∈ extractPptxSlides rawS, 1 ≤ s.slide_no ∧
        lookupMeta c.meta "page_start" = some (MetaVal.num s.slide_no) ∧
        lookupMeta c.meta "page_end" = some (MetaVal.num s.slide_no) ∧
        c.text ∈ pageChunkTexts split (pyStrip (slideCombined s))) := by
  constructor
  · intro c hcm
    obtain ⟨p, hp, h1, h2, h3⟩ :=
      buildPdfRowsAux_chunk_source split sha co ci cat f (extractPdfPages raw) 0 c hcm
    exact ⟨p, hp, extractPdfPages_one_based raw p hp, h1, h2, h3⟩
  · intro c hcm
    obtain ⟨s, hs, h1, h2, h3⟩ :=
      buildPptxRowsAux_chunk_source split sha co ci cat f
        (decide (pptxTotalChars (extractPptxSlides rawS) < 200))
        (extractPptxSlides rawS) 0 c hcm
    exact ⟨s, hs, extractPptxSlides_one_based rawS s hs, h1, h2, h3⟩

def wRawPdf : List (Option String) := [some "Eigenvalues are scalars."]

def wPdfChunk : ContentChunk :=
  ⟨"course-a", "content-1", "notes", 0, "Eigenvalues are scalars.",
   pdfChunkMeta 1 "lec.pdf", 0⟩

def wRawPptx : List RawSlide := [⟨"Intro", "Welcome", ""⟩]

def wPptxSlide : ExtractedSlide := ⟨1, "Intro", "Welcome", ""⟩

def wPptxChunk : ContentChunk :=
  ⟨"course-a", "content-2", "notes", 0, "Slide 1 — Intro\nWelcome",
   pptxChunkMeta wPptxSlide "deck.pptx" true, 0⟩

theorem page_isolation_witness :
    (∃ p ∈ extractPdfPages wRawPdf, 1 ≤ p.page_no ∧
      lookupMeta wPdfChunk.meta "page_start" = some (MetaVal.num p.page_no) ∧
      lookupMeta wPdfChunk.meta "page_end" = some (MetaVal.num p.page_no) ∧
      wPdfChunk.text ∈ pageChunkTexts wSplit (pyStrip p.text)) ∧
    (∃ s ∈ extractPptxSlides wRawPptx, 1 ≤ s.slide_no ∧
      lookupMeta wPptxChunk.meta "page_start" = some (MetaVal.num s.slide_no) ∧
      lookupMeta wPptxChunk.meta "page_end" = some (MetaVal.num s.slide_no) ∧
      wPptxChunk.text ∈ pageChunkTexts wSplit (pyStrip (slideCombined s))) :=
  ⟨(page_isolation wSplit wSha "course-a" "content-1" "notes" "lec.pdf"
      wRawPdf wRawPptx).1 wPdfChunk (by decide),
   (page_isolation wSplit wSha "course-a" "content-2" "notes" "deck.pptx"
      wRawPdf wRawPptx).2 wPptxChunk (by decide)⟩

/-! ### Video transcript merge (`app/bunny/vtt.py`) -/

/-- A caption cue (`VttCue`); the float seconds are modelled as rationals. -/
structure VttCue : Type where
  start_sec : ℚ
  end_sec : ℚ
  text : String
deriving DecidableEq

/-- The `flush()` closure of `merge_cues` (lines 125-134): emit one segment
spanning the buffer's first start to its last end, the cue texts joined by
spaces and stripped; an empty joined text emits nothing. -/
def flushSeg : List VttCue → List VttCue
  | [] => []
  | b0 :: rest =>
    if pyStrip (" ".intercalate ((b0 :: rest).map VttCue.text)) = "" then []
    else [⟨b0.start_sec, (rest.getLastD b0).end_sec,
          pyStrip (" ".intercalate ((b0 :: rest).map VttCue.text))⟩]

/-- The main loop of `merge_cues` (lines 136-152): greedily grow the buffer;
flush when appending the next cue would exceed the character budget or the
time window (measured from the buffer's first start to the cue's end). -/
def mergeCuesAux (max_chars : Int) (max_window_sec : ℚ) :
    List VttCue → List VttCue → List VttCue
  | buf, [] => flushSeg buf
  | [], cue :: rest => mergeCuesAux max_chars max_window_sec [cue] rest
  | b0 :: btl, cue :: rest =>
    if ((pyStrip (" ".intercalate (((b0 :: btl).map VttCue.text) ++
            [cue.text]))).length : Int) ≤ max_chars ∧
        cue.end_sec - b0.start_sec ≤ max_window_sec then
      mergeCuesAux max_chars max_window_sec ((b0 :: btl) ++ [cue]) rest
    else
      flushSeg (b0 :: btl) ++ mergeCuesAux max_chars max_window_sec [cue] rest

/-- `merge_cues` (lines 112-153). -/
def merge_cues (cues : List VttCue) (max_chars : Int)
    (max_window_sec : ℚ) : List VttCue :=
  mergeCuesAux max_chars max_window_sec [] cues

theorem mergeCuesAux_cons_pos (mc : Int) (mw : ℚ) (b0 : VttCue)
    (btl : List VttCue) (cue : VttCue) (rest : List VttCue)
    (h : ((pyStrip (" ".intercalate (((b0 :: btl).map VttCue.text) ++
            [cue.text]))).length : Int) ≤ mc ∧
        cue.end_sec - b0.start_sec ≤ mw) :
    mergeCuesAux mc mw (b0 :: btl) (cue :: rest) =
      mergeCuesAux mc mw ((b0 :: btl) ++ [cue]) rest := by
  simp only [mergeCuesAux]
  rw [if_pos h]

theorem mergeCuesAux_cons_neg (mc : Int) (mw : ℚ) (b0 : VttCue)
    (btl : List VttCue) (cue : VttCue) (rest : List VttCue)
    (h : ¬(((pyStrip (" ".intercalate (((b0 :: btl).map VttCue.text) ++
            [cue.text]))).length : Int) ≤ mc ∧
        cue.end_sec - b0.start_sec ≤ mw)) :
    mergeCuesAux mc mw (b0 :: btl) (cue :: rest) =
      flushSeg (b0 :: btl) ++ mergeCuesAux mc mw [cue] rest := by
  simp only [mergeCuesAux]
  rw [if_neg h]

/-- The cue list of the spec's merge example. -/
def exCues : List VttCue := [⟨0, 1, "a"⟩, ⟨1, 2, "b"⟩, ⟨2, 3, "c"⟩]

/-- C3 fails as stated: on the example cues with `max_window_sec = 1.5`,
`merge_cues` returns three singleton segments, not two — every pair of
adjacent cues spans a 2-second window, which exceeds 1.5, so the buffer is
flushed after every cue. -/
theorem merge_cues_window_counterexample :
    merge_cues exCues 700 (3 / 2) = [⟨0, 1, "a"⟩, ⟨1, 2, "b"⟩, ⟨2, 3, "c"⟩] ∧
    (merge_cues exCues 700 (3 / 2)).length ≠ 2 := by
  have h1 : merge_cues exCues 700 (3 / 2) =
      [⟨0, 1, "a"⟩, ⟨1, 2, "b"⟩, ⟨2, 3, "c"⟩] := by
    show mergeCuesAux 700 (3 / 2) [] exCues = _
    rw [show mergeCuesAux 700 (3 / 2) [] exCues =
        mergeCuesAux 700 (3 / 2) [⟨0, 1, "a"⟩] [⟨1, 2, "b"⟩, ⟨2, 3, "c"⟩] from rfl]
    rw [mergeCuesAux_cons_neg _ _ _ _ _ _ (by
      intro hand
      have h2 : (2 : ℚ) - 0 ≤ 3 / 2 := hand.2
      norm_num at h2)]
    rw [mergeCuesAux_cons_neg _ _ _ _ _ _ (by
      intro hand
      have h2 : (3 : ℚ) - 1 ≤ 3 / 2 := hand.2
      norm_num at h2)]
    rw [show mergeCuesAux 700 (3 / 2) [⟨2, 3, "c"⟩] [] =
        flushSeg [⟨2, 3, "c"⟩] from rfl]
    decide
  refine ⟨h1, ?_⟩
  rw [h1]
  decide

/-- C3 (amended): `merge_cues` greedily accumulates cues, flushing whenever
the next cue would exceed the character or time-window budget and flushing
the remaining buffer at the end; on the example cues it returns the single
segment `(0, 3, "a b c")` whenever `max_chars` holds all three texts
(`5 ≤ max_chars`) and `3 ≤ max_window_sec`, and with
`max_window_sec = 1.5` it returns three singleton segments (one per cue),
since each two-cue merge spans a 2-second window. -/
theorem merge_cues_correctness (mc : Int) (mw : ℚ) (hmc : 5 ≤ mc)
    (hmw : 3 ≤ mw) :
    merge_cues exCues mc mw = [⟨0, 3, "a b c"⟩] ∧
    ∀ mc2 : Int, merge_cues exCues mc2 (3 / 2) =
      [⟨0, 1, "a"⟩, ⟨1, 2, "b"⟩, ⟨2, 3, "c"⟩] := by
  constructor
  · show mergeCuesAux mc mw [] exCues = _
    rw [show mergeCuesAux mc mw [] exCues =
        mergeCuesAux mc mw [⟨0, 1, "a"⟩] [⟨1, 2, "b"⟩, ⟨2, 3, "c"⟩] from rfl]
    rw [mergeCuesAux_cons_pos _ _ _ _ _ _ ⟨by
        rw [show ((pyStrip (" ".intercalate
            ((([⟨0, 1, "a"⟩] : List VttCue).map VttCue.text) ++
              ["b"]))).length : Int) = 3 from by decide]
        omega,
      by
        show (2 : ℚ) - 0 ≤ mw
        linarith⟩]
    show mergeCuesAux mc mw [⟨0, 1, "a"⟩, ⟨1, 2, "b"⟩] [⟨2, 3, "c"⟩] =
      [⟨0, 3, "a b c"⟩]
    rw [mergeCuesAux_cons_pos _ _ _ _ _ _ ⟨by
        rw [show ((pyStrip (" ".intercalate
            ((([⟨0, 1, "a"⟩, ⟨1, 2, "b"⟩] : List VttCue).map VttCue.text) ++
              ["c"]))).length : Int) = 5 from by decide]
        omega,
      by
        show (3 : ℚ) - 0 ≤ mw
        linarith⟩]
    show flushSeg [⟨0, 1, "a"⟩, ⟨1, 2, "b"⟩, ⟨2, 3, "c"⟩] = [⟨0, 3, "a b c"⟩]
    decide
  · intro mc2
    show mergeCuesAux mc2 (3 / 2) [] exCues = _
    rw [show mergeCuesAux mc2 (3 / 2) [] exCues =
        mergeCuesAux mc2 (3 / 2) [⟨0, 1, "a"⟩] [⟨1, 2, "b"⟩, ⟨2, 3, "c"⟩] from rfl]
    rw [mergeCuesAux_cons_neg _ _ _ _ _ _ (by
      intro hand
      have h2 : (2 : ℚ) - 0 ≤ 3 / 2 := hand.2
      norm_num at h2)]
    rw [mergeCuesAux_cons_neg _ _ _ _ _ _ (by
      intro hand
      have h2 : (3 : ℚ) - 1 ≤ 3 / 2 := hand.2
      norm_num at h2)]
    rw [show mergeCuesAux mc2 (3 / 2) [⟨2, 3, "c"⟩] [] =
        flushSeg [⟨2, 3, "c"⟩] from rfl]
    decide

theorem merge_cues_correctness_witness :
    merge_cues exCues 700 3 = [⟨0, 3, "a b c"⟩] ∧
    merge_cues exCues 700 (3 / 2) =
      [⟨0, 1, "a"⟩, ⟨1, 2, "b"⟩, ⟨2, 3, "c"⟩] :=
  ⟨(merge_cues_correctness 700 3 (by norm_num) (by norm_num)).1,
   (merge_cues_correctness 700 3 (by norm_num) (by norm_num)).2 700⟩

/-! ### Chat reply fallback (`app/ai/chat_engine.py`) -/

/-- The deterministic fallback reply of `generate_reply` (line 265). -/
def chatFallbackMessage : String :=
  "I’m not sure—could you rephrase your question or provide more course context?"

/-- Lines 263-265 of `ChatEngine.generate_reply`: the generated text (absent
or `None` content degrades to `""`) is stripped, and the fallback message is
substituted when the result is empty. -/
def generateReplyText (model_output : Option String) : String :=
  if pyStrip (model_output.getD "") = "" then chatFallbackMessage
  else pyStrip (model_output.getD "")

/-- C9: Non-blank chat reply: the returned reply text is never empty, and
whenever the model output is empty or whitespace-only the fixed
deterministic fallback message is returned. -/
theorem generate_reply_nonblank (o : Option String) :
    generateReplyText o ≠ "" ∧
    (pyStrip (o.getD "") = "" → generateReplyText o = chatFallbackMessage) := by
  unfold generateReplyText
  by_cases h : pyStrip (o.getD "") = ""
  · rw [if_pos h]
    exact ⟨by decide, fun _ => rfl⟩
  · rw [if_neg h]
    exact ⟨h, fun hh => absurd hh h⟩

theorem generate_reply_nonblank_witness :
    generateReplyText (some "  \n ") ≠ "" ∧
    generateReplyText (some "  \n ") = chatFallbackMessage :=
  ⟨(generate_reply_nonblank (some "  \n ")).1,
   (generate_reply_nonblank (some "  \n ")).2 (by decide)⟩

end ClassMate
